import Mathlib

/-!
# Verification of the `logx` logging library (github.com/git-zjx/logx)

A shallow embedding of the Go package `logx` and proofs about it.

The embedding covers:
* `default_logger.go` — the asynchronous file sink (`DefaultLogger`): its bounded
  channel, done signal, background worker and close-once lifecycle.  Go channel
  `select` nondeterminism is made explicit: each `select` takes a choice value and a
  branch can fire only when it is ready (`Option` result, `none` = that resolution is
  impossible / the call would keep blocking).
* `logs.go` — the process-wide configuration state (`Load`, level filter, writer
  registry accessors).
* `writer.go` — the two encoders (plain text and JSON) and the writer registry.

Go `[]byte` is modelled as `List Nat`, Go `error` values as `Option String`
(`none` = nil error) carrying the error message.
-/

namespace Logx

/-- Go `[]byte`: a byte sequence. -/
abbrev Bytes := List Nat

/-- A Go `error` value: `none` is the nil error, `some msg` an error with message `msg`. -/
abbrev GoErr := Option String

/-- `var ErrLogFileClosed = errors.New("error: log file closed")` (default_logger.go). -/
def ErrLogFileClosed : String := "error: log file closed"

/-- `bufferSize = 100` (default_logger.go): capacity of the sink's channel. -/
def bufferSize : Nat := 100

/-- State of a `DefaultLogger` (default_logger.go).  The Go struct fields `channel`
(buffered chan), `done` (one-shot chan, `doneClosed` = it has been `close`d),
`waitGroup` (`workerExited` = the worker goroutine has returned), `closeOnce`
(`closeOnceFired` = `closeOnce.Do` has run its function) and `fp` (`fpSet` = the
file handle is non-nil, `fileOpen` = the OS handle has not been `Close`d).
`fileContents` records the byte sequences written to the file by the worker and
`stdLog` the byte sequences echoed to the standard `log` fallback stream. -/
structure DefaultLogger where
  channel : List Bytes
  chanCap : Nat
  doneClosed : Bool
  workerExited : Bool
  closeOnceFired : Bool
  fpSet : Bool
  fileOpen : Bool
  fileContents : List Bytes
  stdLog : List Bytes
  deriving DecidableEq, Repr

/-- The state produced by `NewLogger` (default_logger.go) after a successful `init()`
and `startWorker()`: empty channel of capacity `bufferSize`, done not signalled,
worker running, file handle open. -/
def newLoggerState : DefaultLogger :=
  { channel := []
    chanCap := bufferSize
    doneClosed := false
    workerExited := false
    closeOnceFired := false
    fpSet := true
    fileOpen := true
    fileContents := []
    stdLog := [] }

/-- Which branch of the `select` in `DefaultLogger.Write` fires. -/
inductive WriteChoice where
  | enqueue
  | doneBranch
  deriving DecidableEq, Repr

/-- `DefaultLogger.Write` (default_logger.go lines 66-74):
```
select {
case l.channel <- data:
    return len(data), nil
case <-l.done:
    log.Println(string(data))
    return 0, ErrLogFileClosed
}
```
The send branch is ready when the buffered channel has room; the done branch is
ready when `done` has been closed.  `none` means the chosen branch is not ready
(that resolution of the `select` cannot fire). -/
def DefaultLogger.Write (l : DefaultLogger) (data : Bytes) (c : WriteChoice) :
    Option ((Nat × GoErr) × DefaultLogger) :=
  match c with
  | .enqueue =>
      if l.channel.length < l.chanCap then
        some ((data.length, none), { l with channel := l.channel ++ [data] })
      else
        none
  | .doneBranch =>
      if l.doneClosed then
        some ((0, some ErrLogFileClosed), { l with stdLog := l.stdLog ++ [data] })
      else
        none

/-- Which branch of the worker's `select` (inside `startWorker`) fires. -/
inductive WorkerChoice where
  | recv
  | stop
  deriving DecidableEq, Repr

/-- `DefaultLogger.write` (default_logger.go lines 115-119): the worker appends the
event to the file when the handle is non-nil, ignoring the write error. -/
def DefaultLogger.writeFile (l : DefaultLogger) (v : Bytes) : DefaultLogger :=
  if l.fpSet then { l with fileContents := l.fileContents ++ [v] } else l

/-- One iteration of the worker loop in `startWorker` (default_logger.go lines 98-113):
```
select {
case event := <-l.channel:
    l.write(event)
case <-l.done:
    return
}
```
The receive branch is ready when the channel is nonempty; the done branch when
`done` has been closed.  An exited worker takes no further steps. -/
def workerStep (l : DefaultLogger) (c : WorkerChoice) : Option DefaultLogger :=
  if l.workerExited then none
  else
    match c with
    | .recv =>
        match l.channel with
        | [] => none
        | v :: rest => some (DefaultLogger.writeFile { l with channel := rest } v)
    | .stop =>
        if l.doneClosed then some { l with workerExited := true } else none

/-- A run of the worker goroutine under a given sequence of `select` resolutions;
choices whose branch is not ready are skipped. -/
def workerRun (l : DefaultLogger) : List WorkerChoice → DefaultLogger
  | [] => l
  | c :: cs =>
      match workerStep l c with
      | some m => workerRun m cs
      | none => workerRun l cs

/-- `DefaultLogger.Close` (default_logger.go lines 49-64):
```
l.closeOnce.Do(func() {
    close(l.done)
    l.waitGroup.Wait()
    if err = l.fp.Sync(); err != nil { return }
    err = l.fp.Close()
})
return err
```
`ws` resolves the worker's selects between `close(l.done)` and the return of
`waitGroup.Wait()`; `syncErr` and `closeErr` are the outcomes of the two OS calls.
The result is `none` when the worker has not exited under `ws` (the call is still
blocked in `waitGroup.Wait()`).  When `closeOnce` has already fired, the local
`err` stays nil and the call returns immediately. -/
def DefaultLogger.Close (l : DefaultLogger) (ws : List WorkerChoice)
    (syncErr closeErr : GoErr) : Option (GoErr × DefaultLogger) :=
  if l.closeOnceFired then
    some (none, l)
  else if (workerRun { l with doneClosed := true } ws).workerExited then
    match syncErr with
    | some e =>
        some (some e,
          { workerRun { l with doneClosed := true } ws with closeOnceFired := true })
    | none =>
        some (closeErr,
          { workerRun { l with doneClosed := true } ws with
            closeOnceFired := true
            fileOpen := false })
  else
    none

/-- A `DefaultLogger` on which `Close()` has completed: the state reached from
`newLoggerState` by `Close` with the worker taking the done branch. -/
def closedLogger : DefaultLogger :=
  { newLoggerState with
    doneClosed := true
    workerExited := true
    closeOnceFired := true
    fileOpen := false }

theorem workerStep_exited (l : DefaultLogger) (c : WorkerChoice)
    (h : l.workerExited = true) : workerStep l c = none := by
  simp [workerStep, h]

theorem workerRun_exited (l : DefaultLogger) (ws : List WorkerChoice)
    (h : l.workerExited = true) : workerRun l ws = l := by
  induction ws with
  | nil => rfl
  | cons c cs ih => simp [workerRun, workerStep_exited l c h, ih]

theorem workerStep_doneClosed (l m : DefaultLogger) (c : WorkerChoice)
    (h : workerStep l c = some m) : m.doneClosed = l.doneClosed := by
  unfold workerStep at h
  split at h
  · exact absurd h (by simp)
  · cases c with
    | recv =>
        simp only at h
        cases hc : l.channel with
        | nil => rw [hc] at h; exact absurd h (by simp)
        | cons v rest =>
            rw [hc] at h
            simp only [Option.some.injEq] at h
            subst h
            unfold DefaultLogger.writeFile
            split <;> rfl
    | stop =>
        simp only at h
        split at h
        · simp only [Option.some.injEq] at h
          subst h
          rfl
        · exact absurd h (by simp)

theorem workerRun_doneClosed (ws : List WorkerChoice) (l : DefaultLogger) :
    (workerRun l ws).doneClosed = l.doneClosed := by
  induction ws generalizing l with
  | nil => rfl
  | cons c cs ih =>
      unfold workerRun
      cases hs : workerStep l c with
      | none => exact ih l
      | some m => rw [ih m, workerStep_doneClosed l m c hs]

/-- The state reached from `newLoggerState` by a successful `Write` of the byte `72`:
one record pending in the channel. -/
def pendingLogger : DefaultLogger :=
  { newLoggerState with channel := [[72]] }

/-- The state after `Close()` completes on `pendingLogger` with the worker's select
taking the done branch: the worker has exited, the record is still in the channel
and the file never received it. -/
def lostLogger : DefaultLogger :=
  { pendingLogger with
    doneClosed := true
    workerExited := true
    closeOnceFired := true
    fileOpen := false }

/-- The state after a first `Close()` on `newLoggerState` whose `fp.Sync()` failed:
`closeOnce` has fired but the file handle was never closed. -/
def syncFailedLogger : DefaultLogger :=
  { newLoggerState with
    doneClosed := true
    workerExited := true
    closeOnceFired := true }

/-- C10: a `Write` resolution that enqueues returns count `len(data)` with a nil
error (the bytes are only queued, not yet in the file), and the done-branch
fallback returns count `0` with `ErrLogFileClosed`; no other count is possible. -/
theorem C10_write_count (l : DefaultLogger) (data : Bytes) (c : WriteChoice)
    (r : Nat × GoErr) (m : DefaultLogger) (hw : l.Write data c = some (r, m)) :
    (r = (data.length, none) ∧ m.channel = l.channel ++ [data]
        ∧ m.fileContents = l.fileContents ∧ m.stdLog = l.stdLog)
    ∨ (r = (0, some ErrLogFileClosed) ∧ m.stdLog = l.stdLog ++ [data]
        ∧ m.channel = l.channel ∧ m.fileContents = l.fileContents) := by
  cases c with
  | enqueue =>
      simp only [DefaultLogger.Write] at hw
      split at hw
      · injection hw with h
        injection h with hr hm
        subst hr
        subst hm
        exact Or.inl ⟨rfl, rfl, rfl, rfl⟩
      · exact absurd hw (by simp)
  | doneBranch =>
      simp only [DefaultLogger.Write] at hw
      split at hw
      · injection hw with h
        injection h with hr hm
        subst hr
        subst hm
        exact Or.inr ⟨rfl, rfl, rfl, rfl⟩
      · exact absurd hw (by simp)

/-- Witness for C10 at a concrete input: a successful enqueue of the single byte 65
on a fresh logger. -/
theorem C10_write_count_witness :
    ((((1 : Nat), (none : GoErr)) = (([65] : Bytes).length, none)
        ∧ ({ newLoggerState with channel := [[65]] } : DefaultLogger).channel
            = newLoggerState.channel ++ [[65]]
        ∧ ({ newLoggerState with channel := [[65]] } : DefaultLogger).fileContents
            = newLoggerState.fileContents
        ∧ ({ newLoggerState with channel := [[65]] } : DefaultLogger).stdLog
            = newLoggerState.stdLog)
    ∨ (((1 : Nat), (none : GoErr)) = (0, some ErrLogFileClosed)
        ∧ ({ newLoggerState with channel := [[65]] } : DefaultLogger).stdLog
            = newLoggerState.stdLog ++ [[65]]
        ∧ ({ newLoggerState with channel := [[65]] } : DefaultLogger).channel
            = newLoggerState.channel
        ∧ ({ newLoggerState with channel := [[65]] } : DefaultLogger).fileContents
            = newLoggerState.fileContents)) :=
  C10_write_count newLoggerState [65] .enqueue (1, none)
    { newLoggerState with channel := [[65]] } (by decide)

/-- C1 (amended): once the sink's done-signal has fired, a resolution of the
`select` in `Write` either takes the done branch — returning `(0, ErrLogFileClosed)`
and echoing the bytes to the standard log — or, when the bounded queue still has
room, takes the send branch and silently enqueues the bytes, returning
`(len data, nil)`.  The done branch is always ready after close (so when the queue
is full, `SinkClosed` is the only possible outcome). -/
theorem C1_write_after_close (l : DefaultLogger) (data : Bytes) (c : WriteChoice)
    (r : Nat × GoErr) (m : DefaultLogger)
    (hdone : l.doneClosed = true) (hw : l.Write data c = some (r, m)) :
    ((r = (0, some ErrLogFileClosed) ∧ m.stdLog = l.stdLog ++ [data]
        ∧ m.channel = l.channel)
      ∨ (l.channel.length < l.chanCap ∧ r = (data.length, none)
          ∧ m.channel = l.channel ++ [data] ∧ m.stdLog = l.stdLog))
    ∧ l.Write data .doneBranch =
        some ((0, some ErrLogFileClosed), { l with stdLog := l.stdLog ++ [data] }) := by
  constructor
  · cases c with
    | enqueue =>
        simp only [DefaultLogger.Write] at hw
        split at hw
        · injection hw with h
          injection h with hr hm
          subst hr
          subst hm
          exact Or.inr ⟨by assumption, rfl, rfl, rfl⟩
        · exact absurd hw (by simp)
    | doneBranch =>
        have hw2 : some ((0, some ErrLogFileClosed),
            { l with stdLog := l.stdLog ++ [data] }) = some (r, m) := by
          rw [← hw]
          simp [DefaultLogger.Write, hdone]
        injection hw2 with h
        injection h with hr hm
        subst hr
        subst hm
        exact Or.inl ⟨rfl, rfl, rfl⟩
  · simp [DefaultLogger.Write, hdone]

/-- Witness for C1 at a concrete input: on `closedLogger` (a sink whose `Close()`
has completed), a `Write` of the byte 66 resolved to the enqueue branch. -/
theorem C1_write_after_close_witness :
    ((((1 : Nat), (none : GoErr)) = (0, some ErrLogFileClosed)
        ∧ ({ closedLogger with channel := [[66]] } : DefaultLogger).stdLog
            = closedLogger.stdLog ++ [[66]]
        ∧ ({ closedLogger with channel := [[66]] } : DefaultLogger).channel
            = closedLogger.channel)
      ∨ (closedLogger.channel.length < closedLogger.chanCap
          ∧ ((1 : Nat), (none : GoErr)) = (([66] : Bytes).length, none)
          ∧ ({ closedLogger with channel := [[66]] } : DefaultLogger).channel
              = closedLogger.channel ++ [[66]]
          ∧ ({ closedLogger with channel := [[66]] } : DefaultLogger).stdLog
              = closedLogger.stdLog))
    ∧ closedLogger.Write [66] .doneBranch =
        some ((0, some ErrLogFileClosed),
          { closedLogger with stdLog := closedLogger.stdLog ++ [[66]] }) :=
  C1_write_after_close closedLogger [66] .enqueue (1, none)
    { closedLogger with channel := [[66]] } (by decide) (by decide)

/-- C1 counterexample: `Close()` completes on a fresh sink, reaching `closedLogger`;
yet a subsequent `Write` of the byte 66 whose `select` resolves to the send branch
is accepted into the queue and returns `(1, nil)` — not `(0, ErrLogFileClosed)` —
and nothing is emitted to the fallback stream.  So not every post-close write
returns `SinkClosed`, and a post-close write can be silently enqueued. -/
theorem C1_counterexample :
    newLoggerState.Close [.stop] none none = some (none, closedLogger)
    ∧ closedLogger.Write [66] .enqueue =
        some ((1, none), { closedLogger with channel := [[66]] })
    ∧ (((1 : Nat), (none : GoErr)) ≠ ((0 : Nat), (some ErrLogFileClosed : GoErr)))
    ∧ ({ closedLogger with channel := [[66]] } : DefaultLogger).stdLog
        = closedLogger.stdLog := by
  refine ⟨by decide, by decide, by decide, by decide⟩

/-- C2: the claim is right and the code is wrong.  A record successfully enqueued
while the sink is open (`newLoggerState.Write` of byte 72 returns `(1, nil)`) is
lost: `Close()` completes — the worker's `select` takes the done branch and exits —
yet the record is still sitting in the channel, the file contents are empty, and
once the worker has exited no continuation of the run can ever deliver it.  The
worker loop of `startWorker` has no drain loop after the done-signal fires. -/
theorem C2_close_drops_pending_record :
    newLoggerState.Write [72] .enqueue = some ((1, none), pendingLogger)
    ∧ pendingLogger.Close [.stop] none none = some (none, lostLogger)
    ∧ lostLogger.fileContents = []
    ∧ lostLogger.channel = [[72]]
    ∧ ∀ ws : List WorkerChoice, workerRun lostLogger ws = lostLogger := by
  refine ⟨by decide, by decide, by decide, by decide,
    fun ws => workerRun_exited _ ws (by decide)⟩

/-- C3 counterexample: when the first `Close()` fails in `fp.Sync()` the first call
returns that error while the second call returns nil — the N calls do not all
return the same result. -/
theorem C3_counterexample :
    newLoggerState.Close [.stop] (some "sync failed") none
      = some (some "sync failed", syncFailedLogger)
    ∧ syncFailedLogger.Close [] none none = some (none, syncFailedLogger)
    ∧ (some "sync failed" : GoErr) ≠ (none : GoErr) := by
  refine ⟨by decide, by decide, by decide⟩

/-- C3 (amended): `Close` executes the signal-done/wait/flush/close-file sequence
exactly once.  Once any `Close` call has returned, the `closeOnce` guard has fired
and every further `Close` call is a no-op returning nil; a first call (guard not
yet fired) signals done, waits for the worker to exit and returns the `Sync` error
if any, else the `fp.Close` error.  Hence all N results agree only when the first
call succeeded. -/
theorem C3_close_exactly_once (l : DefaultLogger) (ws : List WorkerChoice)
    (syncErr closeErr : GoErr) (e : GoErr) (m : DefaultLogger)
    (ws2 : List WorkerChoice) (syncErr2 closeErr2 : GoErr)
    (h : l.Close ws syncErr closeErr = some (e, m)) :
    m.closeOnceFired = true
    ∧ m.Close ws2 syncErr2 closeErr2 = some (none, m)
    ∧ (l.closeOnceFired = false →
        m.doneClosed = true ∧ m.workerExited = true
          ∧ e = (if syncErr.isSome then syncErr else closeErr))
    ∧ (l.closeOnceFired = true → e = none ∧ m = l) := by
  unfold DefaultLogger.Close at h
  by_cases hf : l.closeOnceFired = true
  · rw [if_pos hf] at h
    injection h with h2
    injection h2 with he hm
    subst hm
    subst he
    refine ⟨hf, ?_, ?_, fun _ => ⟨rfl, rfl⟩⟩
    · unfold DefaultLogger.Close
      rw [if_pos hf]
    · intro hfalse
      rw [hfalse] at hf
      exact absurd hf (by simp)
  · rw [if_neg hf] at h
    by_cases hx : (workerRun { l with doneClosed := true } ws).workerExited = true
    · rw [if_pos hx] at h
      cases syncErr with
      | some e0 =>
          injection h with h2
          injection h2 with he hm
          subst hm
          subst he
          refine ⟨rfl, ?_, fun _ => ⟨?_, hx, by simp⟩,
            fun ht => absurd ht hf⟩
          · unfold DefaultLogger.Close
            rfl
          · exact workerRun_doneClosed ws { l with doneClosed := true }
      | none =>
          injection h with h2
          injection h2 with he hm
          subst hm
          subst he
          refine ⟨rfl, ?_, fun _ => ⟨?_, hx, by simp⟩,
            fun ht => absurd ht hf⟩
          · unfold DefaultLogger.Close
            rfl
          · exact workerRun_doneClosed ws { l with doneClosed := true }
    · rw [if_neg hx] at h
      exact absurd h (by simp)

/-- Witness for C3 at a concrete input: the failing-sync close on a fresh logger,
followed by a second close. -/
theorem C3_close_exactly_once_witness :
    syncFailedLogger.closeOnceFired = true
    ∧ syncFailedLogger.Close [] none none = some (none, syncFailedLogger)
    ∧ (newLoggerState.closeOnceFired = false →
        syncFailedLogger.doneClosed = true ∧ syncFailedLogger.workerExited = true
          ∧ (some "sync failed" : GoErr)
              = (if (some "sync failed" : GoErr).isSome then (some "sync failed" : GoErr)
                  else none))
    ∧ (newLoggerState.closeOnceFired = true →
        (some "sync failed" : GoErr) = none ∧ syncFailedLogger = newLoggerState) :=
  C3_close_exactly_once newLoggerState [.stop] (some "sync failed") none
    (some "sync failed") syncFailedLogger [] none none (by decide)

/-- `InfoLevel uint32 = iota` (logs.go line 13): the info level is 0. -/
def InfoLevel : Nat := 0

/-- `ErrorLevel` (logs.go line 14): the error level is 1. -/
def ErrorLevel : Nat := 1

/-- `levelInfo = "info"` (writer.go). -/
def levelInfo : String := "info"

/-- `levelError = "error"` (writer.go). -/
def levelError : String := "error"

/-- `jsonEncodingType = iota` (logs.go): 0. -/
def jsonEncodingType : Nat := 0

/-- `plainEncodingType` (logs.go): 1. -/
def plainEncodingType : Nat := 1

/-- `plainEncoding = "plain"` (logs.go). -/
def plainEncoding : String := "plain"

/-- `fileMode = "file"` (logs.go). -/
def fileMode : String := "file"

/-- `LogConf` (logs.go lines 30-40). -/
structure LogConf where
  Mode : String
  Encoding : String
  PlainEncodingSep : String
  WithColor : Bool
  TimeFormat : String
  Path : String
  Level : String
  deriving DecidableEq, Repr

/-- The zero value of `LogConf` (what `new(LogConf)` yields). -/
def initialLogConf : LogConf :=
  { Mode := ""
    Encoding := ""
    PlainEncodingSep := ""
    WithColor := false
    TimeFormat := ""
    Path := ""
    Level := "" }

/-- A value of the `Writer` interface held by the registry: the console writer,
a file-backed writer, or a user-supplied writer (`SetWriter`). -/
inductive WriterRef where
  | console
  | file (path : String)
  | custom (id : Nat)
  deriving DecidableEq, Repr

/-- The process-wide mutable state of `logs.go`'s `var` block (lines 42-51):
`setupOnce`, `logLevel` (zero value 0 = info), `encoding` (json), `withColor`
(false), `plainEncodingSep` (tab), `timeFormat` (RFC3339-with-millis default),
the `atomicWriter` slot (empty) and `conf` (`new(LogConf)`). -/
structure LogxState where
  setupOnceFired : Bool
  logLevel : Nat
  encoding : Nat
  withColor : Bool
  plainEncodingSep : String
  timeFormat : String
  writerSlot : Option WriterRef
  conf : LogConf
  deriving DecidableEq, Repr

/-- The initial values of the `var` block (logs.go lines 42-51). -/
def initialState : LogxState :=
  { setupOnceFired := false
    logLevel := 0
    encoding := jsonEncodingType
    withColor := false
    plainEncodingSep := "\t"
    timeFormat := "2006-01-02T15:04:05.000Z07:00"
    writerSlot := none
    conf := initialLogConf }

/-- `atomicWriter.Load` (writer.go lines 51-55). -/
def atomicWriter.Load (slot : Option WriterRef) : Option WriterRef := slot

/-- `atomicWriter.Store` (writer.go lines 57-61): the new slot value. -/
def atomicWriter.Store (_slot v : Option WriterRef) : Option WriterRef := v

/-- `atomicWriter.StoreIfNil` (writer.go lines 64-73): installs `v` only when the
slot is empty and returns (returned writer, new slot value). -/
def atomicWriter.StoreIfNil (slot v : Option WriterRef) :
    Option WriterRef × Option WriterRef :=
  match slot with
  | none => (v, v)
  | some w => (some w, some w)

/-- `atomicWriter.Swap` (writer.go lines 75-81): returns (old value, new slot value). -/
def atomicWriter.Swap (slot v : Option WriterRef) :
    Option WriterRef × Option WriterRef :=
  (slot, v)

/-- `newConsoleWriter` (writer.go lines 102-107): a fresh (non-nil) console-backed
`defaultWriter`. -/
def newConsoleWriter : WriterRef := .console

/-- `getWriter` (logs.go lines 162-168): load the registry's writer; when the slot
is empty, install a console writer via store-if-nil and return the now-active
writer. -/
def getWriter (st : LogxState) : Option WriterRef × LogxState :=
  match atomicWriter.Load st.writerSlot with
  | some w => (some w, st)
  | none =>
      ((atomicWriter.StoreIfNil st.writerSlot (some newConsoleWriter)).1,
        { st with
          writerSlot := (atomicWriter.StoreIfNil st.writerSlot (some newConsoleWriter)).2 })

/-- `SetWriter` (logs.go lines 171-173). -/
def SetWriter (st : LogxState) (w : Option WriterRef) : LogxState :=
  { st with writerSlot := atomicWriter.Store st.writerSlot w }

/-- `SetLevel` (logs.go lines 176-178): stores the level atomically.  Levels are
`uint32`; only the values `InfoLevel = 0` and `ErrorLevel = 1` exist. -/
def SetLevel (st : LogxState) (level : Nat) : LogxState :=
  { st with logLevel := level }

/-- `shallLog` (logs.go lines 181-183): `atomic.LoadUint32(&logLevel) <= level`. -/
def shallLog (st : LogxState) (level : Nat) : Bool :=
  st.logLevel ≤ level

/-- A call made on the active `Writer` by the facade. -/
inductive WriterCall where
  | info (msg : String)
  | error (msg : String)
  deriving DecidableEq, Repr

/-- `errorTextSync` (logs.go lines 148-152): gated on `shallLog(ErrorLevel)`; when
it passes, the sink's `Error` method receives the message with the captured stack
trace appended (`stack` is the external `debug.Stack()` output).  `none` = the
sink is never invoked. -/
def errorTextSync (st : LogxState) (msg stack : String) : Option WriterCall :=
  if shallLog st ErrorLevel then some (.error (msg ++ "\n" ++ stack)) else none

/-- `infoTextSync` (logs.go lines 155-159): gated on `shallLog(InfoLevel)`. -/
def infoTextSync (st : LogxState) (msg : String) : Option WriterCall :=
  if shallLog st InfoLevel then some (.info msg) else none

/-- Package-level `Close` (logs.go lines 139-145): swap the slot to nil; when a
writer was active, close it (`closeResult` gives the outcome of the underlying
`io.Closer.Close` call), else return nil. -/
def Close (st : LogxState) (closeResult : WriterRef → GoErr) : GoErr × LogxState :=
  match atomicWriter.Swap st.writerSlot none with
  | (some w, slot2) => (closeResult w, { st with writerSlot := slot2 })
  | (none, slot2) => (none, { st with writerSlot := slot2 })

/-- `setupLogLevel` (logs.go lines 186-193): only the strings "info" and "error"
change the level; anything else leaves it untouched. -/
def setupLogLevel (st : LogxState) (c : LogConf) : LogxState :=
  if c.Level = levelInfo then SetLevel st InfoLevel
  else if c.Level = levelError then SetLevel st ErrorLevel
  else st

/-- `setupPath` (logs.go lines 195-199): assigns a default to the `Path` field of
its by-value parameter, which has no effect on any global state. -/
def setupPath (st : LogxState) (_ : LogConf) : LogxState := st

/-- `setupTimeFormat` (logs.go lines 201-205). -/
def setupTimeFormat (st : LogxState) (c : LogConf) : LogxState :=
  if c.TimeFormat.length > 0 then { st with timeFormat := c.TimeFormat } else st

/-- `setupPlainEncodingSep` (logs.go lines 207-211). -/
def setupPlainEncodingSep (st : LogxState) (c : LogConf) : LogxState :=
  if c.PlainEncodingSep.length > 0 then { st with plainEncodingSep := c.PlainEncodingSep }
  else st

/-- `setupWithColor` (logs.go lines 213-217). -/
def setupWithColor (st : LogxState) (c : LogConf) : LogxState :=
  if c.WithColor then { st with withColor := c.WithColor } else st

/-- `setupEncoding` (logs.go lines 219-226). -/
def setupEncoding (st : LogxState) (c : LogConf) : LogxState :=
  if c.Encoding = plainEncoding then { st with encoding := plainEncodingType }
  else { st with encoding := jsonEncodingType }

/-- `newFileWriter` (writer.go lines 109-128): defaults the path, runs
`setupLogLevel(c)` again as a side effect, then opens the output file
(`createOutput` → `NewLogger`; `osErr` is the OS outcome, `none` = success).
`path.Join(c.Path, filename) + ".log"` is modelled as slash-concatenation. -/
def newFileWriter (st : LogxState) (c : LogConf) (filename : String) (osErr : GoErr) :
    (Option WriterRef × GoErr) × LogxState :=
  let p := if c.Path.length = 0 then "logs" else c.Path
  ((if osErr.isSome then none else some (.file (p ++ "/" ++ filename ++ ".log")),
      osErr),
    setupLogLevel st c)

/-- `setupWithFiles` (logs.go lines 243-251). -/
def setupWithFiles (st : LogxState) (c : LogConf) (osErr : GoErr) : GoErr × LogxState :=
  match (newFileWriter st c "logx" osErr).1.2 with
  | some e => (some e, (newFileWriter st c "logx" osErr).2)
  | none =>
      (none, SetWriter (newFileWriter st c "logx" osErr).2
        (newFileWriter st c "logx" osErr).1.1)

/-- `setupWithConsole` (logs.go lines 239-241). -/
def setupWithConsole (st : LogxState) : LogxState :=
  SetWriter st (some newConsoleWriter)

/-- `setupWriter` (logs.go lines 229-237). -/
def setupWriter (st : LogxState) (c : LogConf) (osErr : GoErr) : GoErr × LogxState :=
  if c.Mode = fileMode then setupWithFiles st c osErr
  else (none, setupWithConsole st)

/-- `Load` (logs.go lines 54-77): guarded by `setupOnce.Do`; the first call stores
the config and runs the setup chain in source order; later calls return nil
without touching anything. -/
def Load (st : LogxState) (c : LogConf) (osErr : GoErr) : GoErr × LogxState :=
  if st.setupOnceFired then (none, st)
  else
    setupWriter
      (setupEncoding
        (setupWithColor
          (setupPlainEncodingSep
            (setupTimeFormat
              (setupPath
                (setupLogLevel { st with setupOnceFired := true, conf := c } c)
                c)
              c)
            c)
          c)
        c)
      c osErr

/-- C5: `shallLog(level)` holds exactly when `level >= threshold` under the ordering
info(0) < error(1); the initial threshold (zero value of the atomic) is info, so
every record passes the filter; after `SetLevel(ErrorLevel)`, `infoTextSync` never
invokes the sink while `errorTextSync` still does. -/
theorem C5_level_filter (st : LogxState) (lvl : Nat) (msg stack : String) :
    (shallLog st lvl = true ↔ st.logLevel ≤ lvl)
    ∧ InfoLevel < ErrorLevel
    ∧ initialState.logLevel = InfoLevel
    ∧ shallLog initialState lvl = true
    ∧ infoTextSync initialState msg = some (.info msg)
    ∧ errorTextSync initialState msg stack = some (.error (msg ++ "\n" ++ stack))
    ∧ infoTextSync (SetLevel st ErrorLevel) msg = none
    ∧ errorTextSync (SetLevel st ErrorLevel) msg stack
        = some (.error (msg ++ "\n" ++ stack)) := by
  refine ⟨by simp [shallLog], by decide, by decide, ?_, ?_, ?_, ?_, ?_⟩
  · simp [shallLog, initialState]
  · simp [infoTextSync, shallLog, initialState, InfoLevel]
  · simp [errorTextSync, shallLog, initialState, ErrorLevel]
  · simp [infoTextSync, shallLog, SetLevel, InfoLevel, ErrorLevel]
  · simp [errorTextSync, shallLog, SetLevel, ErrorLevel]

/-- C9: the facade never receives a nil writer: `getWriter` returns the current
writer, lazily installing a console writer when the slot is empty; the
package-level `Close` swaps the slot to nil (and returns nil when no writer was
active), after which `getWriter` re-installs a fresh console writer. -/
theorem C9_getWriter_never_nil (st : LogxState) (closeResult : WriterRef → GoErr) :
    ((getWriter st).1.isSome = true)
    ∧ (st.writerSlot = (getWriter st).2.writerSlot ∨
        (getWriter st).2.writerSlot = some newConsoleWriter)
    ∧ ((Close st closeResult).2.writerSlot = none)
    ∧ ((Close { st with writerSlot := none } closeResult).1 = none)
    ∧ ((getWriter (Close st closeResult).2).1 = some newConsoleWriter)
    ∧ ((getWriter (Close st closeResult).2).2.writerSlot = some newConsoleWriter) := by
  cases h : st.writerSlot with
  | none =>
      refine ⟨?_, ?_, ?_, ?_, ?_, ?_⟩ <;>
        simp [getWriter, Close, atomicWriter.Load, atomicWriter.StoreIfNil,
          atomicWriter.Swap, h]
  | some w =>
      refine ⟨?_, ?_, ?_, ?_, ?_, ?_⟩ <;>
        simp [getWriter, Close, atomicWriter.Load, atomicWriter.StoreIfNil,
          atomicWriter.Swap, h]

theorem Load_fired (st : LogxState) (c : LogConf) (osErr : GoErr)
    (h : st.setupOnceFired = true) : Load st c osErr = (none, st) := by
  unfold Load
  rw [if_pos h]

theorem setupLogLevel_setupOnceFired (s : LogxState) (c : LogConf) :
    (setupLogLevel s c).setupOnceFired = s.setupOnceFired := by
  unfold setupLogLevel SetLevel
  split_ifs <;> rfl

theorem setupLogLevel_conf (s : LogxState) (c : LogConf) :
    (setupLogLevel s c).conf = s.conf := by
  unfold setupLogLevel SetLevel
  split_ifs <;> rfl

theorem setupLogLevel_logLevel (s : LogxState) (c : LogConf) :
    (setupLogLevel s c).logLevel
      = (if c.Level = levelInfo then InfoLevel
         else if c.Level = levelError then ErrorLevel else s.logLevel) := by
  unfold setupLogLevel SetLevel
  split_ifs <;> rfl

theorem mid_setups_setupOnceFired (s : LogxState) (c : LogConf) :
    (setupEncoding (setupWithColor (setupPlainEncodingSep
        (setupTimeFormat (setupPath s c) c) c) c) c).setupOnceFired
      = s.setupOnceFired := by
  unfold setupEncoding setupWithColor setupPlainEncodingSep setupTimeFormat setupPath
  split_ifs <;> rfl

theorem mid_setups_conf (s : LogxState) (c : LogConf) :
    (setupEncoding (setupWithColor (setupPlainEncodingSep
        (setupTimeFormat (setupPath s c) c) c) c) c).conf
      = s.conf := by
  unfold setupEncoding setupWithColor setupPlainEncodingSep setupTimeFormat setupPath
  split_ifs <;> rfl

theorem mid_setups_logLevel (s : LogxState) (c : LogConf) :
    (setupEncoding (setupWithColor (setupPlainEncodingSep
        (setupTimeFormat (setupPath s c) c) c) c) c).logLevel
      = s.logLevel := by
  unfold setupEncoding setupWithColor setupPlainEncodingSep setupTimeFormat setupPath
  split_ifs <;> rfl

theorem setupWriter_setupOnceFired (s : LogxState) (c : LogConf) (osErr : GoErr) :
    (setupWriter s c osErr).2.setupOnceFired = s.setupOnceFired := by
  unfold setupWriter setupWithFiles newFileWriter setupWithConsole SetWriter
    setupLogLevel SetLevel atomicWriter.Store
  cases osErr <;> split_ifs <;> rfl

theorem setupWriter_conf (s : LogxState) (c : LogConf) (osErr : GoErr) :
    (setupWriter s c osErr).2.conf = s.conf := by
  unfold setupWriter setupWithFiles newFileWriter setupWithConsole SetWriter
    setupLogLevel SetLevel atomicWriter.Store
  cases osErr <;> split_ifs <;> rfl

theorem setupWriter_logLevel (s : LogxState) (c : LogConf) (osErr : GoErr) :
    (setupWriter s c osErr).2.logLevel
      = (if c.Mode = fileMode then
          (if c.Level = levelInfo then InfoLevel
           else if c.Level = levelError then ErrorLevel else s.logLevel)
        else s.logLevel) := by
  unfold setupWriter setupWithFiles newFileWriter setupWithConsole SetWriter
    setupLogLevel SetLevel atomicWriter.Store
  cases osErr <;> split_ifs <;> rfl

/-- A config with level "error" (the first caller's config in the C6 scenario). -/
def errorConf : LogConf :=
  { Mode := "console", Encoding := "json", PlainEncodingSep := "", WithColor := false,
    TimeFormat := "", Path := "logs", Level := "error" }

/-- A config with level "info" (the second caller's config in the C6 scenario). -/
def infoConf : LogConf :=
  { errorConf with Level := "info" }

/-- C6: `Load` applies its configuration exactly once per process: a first call on
a fresh state marks the once-guard, stores the config and sets the threshold from
its `Level` field; every later call returns nil and leaves the state exactly
unchanged, so the effective level matches the first caller's config. -/
theorem C6_load_first_wins (st : LogxState) (c1 c2 : LogConf) (osErr1 osErr2 : GoErr)
    (hfresh : st.setupOnceFired = false) :
    (Load st c1 osErr1).2.setupOnceFired = true
    ∧ (Load st c1 osErr1).2.conf = c1
    ∧ (Load st c1 osErr1).2.logLevel
        = (if c1.Level = levelInfo then InfoLevel
           else if c1.Level = levelError then ErrorLevel else st.logLevel)
    ∧ Load (Load st c1 osErr1).2 c2 osErr2 = (none, (Load st c1 osErr1).2) := by
  have hne : ¬ st.setupOnceFired = true := by simp [hfresh]
  have hload : Load st c1 osErr1
      = setupWriter
          (setupEncoding
            (setupWithColor
              (setupPlainEncodingSep
                (setupTimeFormat
                  (setupPath
                    (setupLogLevel { st with setupOnceFired := true, conf := c1 } c1)
                    c1)
                  c1)
                c1)
              c1)
            c1)
          c1 osErr1 := by
    unfold Load
    rw [if_neg hne]
  have k1 : (Load st c1 osErr1).2.setupOnceFired = true := by
    rw [hload, setupWriter_setupOnceFired, mid_setups_setupOnceFired,
      setupLogLevel_setupOnceFired]
  have k2 : (Load st c1 osErr1).2.conf = c1 := by
    rw [hload, setupWriter_conf, mid_setups_conf, setupLogLevel_conf]
  have k3 : (Load st c1 osErr1).2.logLevel
      = (if c1.Level = levelInfo then InfoLevel
         else if c1.Level = levelError then ErrorLevel else st.logLevel) := by
    rw [hload, setupWriter_logLevel, mid_setups_logLevel, setupLogLevel_logLevel]
    split_ifs <;> rfl
  exact ⟨k1, k2, k3, Load_fired _ c2 osErr2 k1⟩

/-- Witness for C6 at a concrete input: two `Load` calls on the initial state, the
first with level "error", the second with level "info". -/
theorem C6_load_first_wins_witness :
    (Load initialState errorConf none).2.setupOnceFired = true
    ∧ (Load initialState errorConf none).2.conf = errorConf
    ∧ (Load initialState errorConf none).2.logLevel
        = (if errorConf.Level = levelInfo then InfoLevel
           else if errorConf.Level = levelError then ErrorLevel
           else initialState.logLevel)
    ∧ Load (Load initialState errorConf none).2 infoConf none
        = (none, (Load initialState errorConf none).2) :=
  C6_load_first_wins initialState errorConf infoConf none none (by decide)

/-- A Go interface value passed as a log payload.  `str s` is a value whose dynamic
type is exactly `string` (such a value implements neither `error` nor
`fmt.Stringer`, so the later switch cases cannot apply to it); `other` is a value
of any other type, carrying the result of `Error()` when it implements `error`,
the result of `String()` when it implements `fmt.Stringer`, and its
`encoding/json` marshaling (`none` = marshaling fails, e.g. a channel value). -/
inductive GoValue where
  | str (s : String)
  | other (errMsg stringerStr jsonRepr : Option String)
  deriving DecidableEq, Repr

/-- Where the encoder's bytes went: `toWriter s` = the destination writer's `Write`
received `s`; `toLog s` = the standard `log` fallback received `s` (the nil-writer
and marshal-error paths). -/
inductive EncodeOutput where
  | toWriter (s : String)
  | toLog (s : String)
  deriving DecidableEq, Repr

/-- The color codes `wrapLevelWithColor` uses from the repository's `color` package
(not under src): the zero value `noColor`, plus red and blue. -/
inductive ColorCode where
  | noColor
  | fgRed
  | fgBlue
  deriving DecidableEq, Repr

/-- Modelled from the spec: `color.WithColorPadding` (repository package
`logx/color`, whose source is not under src) wraps the level text in the ANSI
sequence of the chosen color, padded with spaces; the spec says only that the
level field "is wrapped with a color code chosen by level". -/
def WithColorPadding (s : String) (c : ColorCode) : String :=
  match c with
  | .noColor => " " ++ s ++ " "
  | .fgRed => " \x1b[31m" ++ s ++ "\x1b[0m "
  | .fgBlue => " \x1b[34m" ++ s ++ "\x1b[0m "

/-- `wrapLevelWithColor` (writer.go lines 210-224): error is wrapped red, info
blue, anything else left unwrapped. -/
def wrapLevelWithColor (level : String) : String :=
  if level = levelError then WithColorPadding level .fgRed
  else if level = levelInfo then WithColorPadding level .fgBlue
  else level

/-- Lowercase hexadecimal digit, as `encoding/json` emits inside `\u00xx`. -/
def hexDigit (n : Nat) : Char :=
  if n < 10 then Char.ofNat (48 + n) else Char.ofNat (87 + n)

/-- The escaping Go's `encoding/json` (default HTML-escaping encoder) applies to
one character of a string: quote and backslash escaped; newline, carriage return
and tab as short escapes; other control characters as `\u00xx`; the HTML
characters `<` `>` `&` and the line separators U+2028/U+2029 as `\uxxxx`; every
other character is emitted literally. -/
def escapeChar (c : Char) : List Char :=
  if c = '"' then ['\\', '"']
  else if c = '\\' then ['\\', '\\']
  else if c = '\n' then ['\\', 'n']
  else if c = '\r' then ['\\', 'r']
  else if c = '\t' then ['\\', 't']
  else if c.toNat < 32 then
    ['\\', 'u', '0', '0', hexDigit (c.toNat / 16), hexDigit (c.toNat % 16)]
  else if c = '<' then ['\\', 'u', '0', '0', '3', 'c']
  else if c = '>' then ['\\', 'u', '0', '0', '3', 'e']
  else if c = '&' then ['\\', 'u', '0', '0', '2', '6']
  else if c.toNat = 8232 then ['\\', 'u', '2', '0', '2', '8']
  else if c.toNat = 8233 then ['\\', 'u', '2', '0', '2', '9']
  else [c]

/-- `encoding/json` marshaling of a Go string value: quoted and escaped. -/
def jsonQuote (s : String) : String :=
  ⟨'"' :: (s.data.map escapeChar).flatten ++ ['"']⟩

/-- `json.Marshal` applied to a payload value: a string marshals to its quoted
escaped form; for any other value its carried marshaling is used (`none` = a
marshal error such as `json: unsupported type`). -/
def goJsonRepr : GoValue → Option String
  | .str s => some (jsonQuote s)
  | .other _ _ j => j

/-- The object `json.Marshal` produces for the entry map built by `output`
(writer.go lines 140-147): Go marshals a `map[string]interface{}` with its keys in
sorted order — `@timestamp`, `caller`, `content`, `level` — with no spaces, each
value marshaled in place. -/
def marshalStrEntry (ts caller level contentJson : String) : String :=
  "\x7b" ++ jsonQuote "@timestamp" ++ ":" ++ jsonQuote ts ++ ","
    ++ jsonQuote "caller" ++ ":" ++ jsonQuote caller ++ ","
    ++ jsonQuote "content" ++ ":" ++ contentJson ++ ","
    ++ jsonQuote "level" ++ ":" ++ jsonQuote level ++ "\x7d"

/-- `writeJson` (writer.go lines 226-234) on the entry map built by `output`: a
marshal error is logged to the standard log; with a nil writer the object goes to
the standard log; otherwise the writer receives the object plus a newline. -/
def writeJson (writerNil : Bool) (ts caller level : String) (val : GoValue) :
    EncodeOutput :=
  match goJsonRepr val with
  | none => .toLog "json: unsupported type"
  | some j =>
      if writerNil then .toLog (marshalStrEntry ts caller level j)
      else .toWriter (marshalStrEntry ts caller level j ++ "\n")

/-- `writePlainText` (writer.go lines 167-185): timestamp, level, message and
`caller=<file:line>` joined by the configured separator, plus a newline; a nil
writer diverts the buffer to the standard log.  (A successful destination write is
assumed; the source merely logs a failed write's error.) -/
def writePlainText (st : LogxState) (writerNil : Bool) (ts caller level msg : String) :
    EncodeOutput :=
  let buf := ts ++ st.plainEncodingSep ++ level ++ st.plainEncodingSep ++ msg
    ++ st.plainEncodingSep ++ "caller=" ++ caller ++ "\n"
  if writerNil then .toLog buf else .toWriter buf

/-- `writePlainValue` (writer.go lines 187-208): like `writePlainText` but the
message is produced by `json.NewEncoder(&buf).Encode(val)`, which appends its own
newline after the JSON value; an encode error is logged and nothing is written. -/
def writePlainValue (st : LogxState) (writerNil : Bool) (ts caller level : String)
    (val : GoValue) : EncodeOutput :=
  match goJsonRepr val with
  | none => .toLog "json: unsupported type"
  | some j =>
      let buf := ts ++ st.plainEncodingSep ++ level ++ st.plainEncodingSep
        ++ j ++ "\n"
        ++ st.plainEncodingSep ++ "caller=" ++ caller ++ "\n"
      if writerNil then .toLog buf else .toWriter buf

/-- `writePlainAny` (writer.go lines 150-165): optional colorization of the level,
then the type switch in source order — `string`, `error`, `fmt.Stringer`, default. -/
def writePlainAny (st : LogxState) (writerNil : Bool) (ts caller level : String)
    (val : GoValue) : EncodeOutput :=
  let lv := if st.withColor then wrapLevelWithColor level else level
  match val with
  | .str s => writePlainText st writerNil ts caller lv s
  | .other (some e) _ _ => writePlainText st writerNil ts caller lv e
  | .other none (some s) _ => writePlainText st writerNil ts caller lv s
  | .other none none j => writePlainValue st writerNil ts caller lv (.other none none j)

/-- `output` (writer.go lines 135-148): plain encoding dispatches to
`writePlainAny`; anything else builds the timestamp/level/content/caller entry and
dispatches to `writeJson`.  `ts` and `caller` stand for the external
`getTimestamp()` and `getCaller(callerDepth)` results. -/
def output (st : LogxState) (writerNil : Bool) (ts caller level : String)
    (val : GoValue) : EncodeOutput :=
  if st.encoding = plainEncodingType then writePlainAny st writerNil ts caller level val
  else writeJson writerNil ts caller level val

/-- The message-selection chain implemented by the type switch of `writePlainAny`,
written as an explicit ordered chain of type tests (code order: plain string,
error, Stringer; `none` = fall through to JSON serialization). -/
def plainMsgChain : GoValue → Option String
  | .str s => some s
  | .other (some e) _ _ => some e
  | .other none (some s) _ => some s
  | .other none none _ => none

/-- The precedence chain in the spec's words — "stringifiable value's string form,
else error's message, else the value's own string representation, else JSON
serialization": the Stringer form first, then the error message, then the plain
string, then JSON. -/
def specPrecedenceMsg : GoValue → Option String
  | .str s => some s
  | .other _ (some s) _ => some s
  | .other (some e) none _ => some e
  | .other none none _ => none

/-- A payload value that implements both `error` (message "boom error") and
`fmt.Stringer` (form "boom stringer"). -/
def stringerAndError : GoValue :=
  .other (some "boom error") (some "boom stringer") (some "\x7b\x7d")

/-- C4 counterexample: for a payload that is both an `error` and a `Stringer`, the
type switch of `writePlainAny` tests `error` before `fmt.Stringer`, so the emitted
message is the error's message — while the spec's precedence chain would pick the
Stringer form. -/
theorem C4_counterexample :
    writePlainAny initialState false "T" "F:1" levelInfo stringerAndError
      = .toWriter ("T\tinfo\tboom error\tcaller=F:1\n")
    ∧ specPrecedenceMsg stringerAndError = some "boom stringer"
    ∧ ¬ writePlainAny initialState false "T" "F:1" levelInfo stringerAndError
        = .toWriter ("T\tinfo\tboom stringer\tcaller=F:1\n") := by
  refine ⟨by decide, by decide, by decide⟩

/-- C4 (amended): in plain mode the message is chosen by the switch in source
order — a value of dynamic type `string` as-is, else an `error`'s message, else a
`Stringer`'s form, else the JSON serialization; in particular a value that is both
an `error` and a `Stringer` uses the error message. -/
theorem C4_precedence (st : LogxState) (writerNil : Bool) (ts caller level : String)
    (val : GoValue) (em ss : String) (j : Option String)
    (hcolor : st.withColor = false) :
    writePlainAny st writerNil ts caller level val
      = (match plainMsgChain val with
         | some m => writePlainText st writerNil ts caller level m
         | none => writePlainValue st writerNil ts caller level val)
    ∧ plainMsgChain (.other (some em) (some ss) j) = some em
    ∧ plainMsgChain (.str ss) = some ss
    ∧ plainMsgChain (.other none (some ss) j) = some ss
    ∧ plainMsgChain (.other none none j) = none := by
  refine ⟨?_, rfl, rfl, rfl, rfl⟩
  cases val with
  | str s => simp [writePlainAny, plainMsgChain, hcolor]
  | other e strer jr =>
      cases e <;> cases strer <;> simp [writePlainAny, plainMsgChain, hcolor]

/-- Witness for C4 at a concrete input: the both-error-and-Stringer payload under
the initial (tab-separated, colorless) configuration. -/
theorem C4_precedence_witness :
    (writePlainAny initialState false "T" "F:1" levelInfo stringerAndError
      = (match plainMsgChain stringerAndError with
         | some m => writePlainText initialState false "T" "F:1" levelInfo m
         | none => writePlainValue initialState false "T" "F:1" levelInfo stringerAndError))
    ∧ plainMsgChain (.other (some "E") (some "S") none) = some "E"
    ∧ plainMsgChain (.str "S") = some "S"
    ∧ plainMsgChain (.other none (some "S") none) = some "S"
    ∧ plainMsgChain (.other none none none) = none :=
  C4_precedence initialState false "T" "F:1" levelInfo stringerAndError "E" "S" none
    (by decide)

/-- A payload value of a kind that falls to the default switch branch (not a
string, error or Stringer), whose JSON serialization is `5`. -/
def jsonValuePayload : GoValue := .other none none (some "5")

/-- The plain-encoding configuration of the C7 scenario: separator "|", color off. -/
def pipeState : LogxState :=
  { initialState with plainEncodingSep := "|", encoding := plainEncodingType }

/-- C7 counterexample: for a payload that is not a string, error or Stringer, the
plain encoder writes the JSON serialization through `json.Encoder.Encode`, which
appends its own newline — so the emitted record contains an embedded newline
before the separator and caller field and is not the claimed single line
`<timestamp><sep><level><sep><message><sep>caller=<file:line>\n`. -/
theorem C7_counterexample :
    writePlainAny pipeState false "T" "F:1" levelInfo jsonValuePayload
      = .toWriter ("T|info|5\n|caller=F:1\n")
    ∧ ¬ writePlainAny pipeState false "T" "F:1" levelInfo jsonValuePayload
        = .toWriter ("T|info|5|caller=F:1\n")
    ∧ ("T|info|5\n|caller=F:1\n").data.count '\n' = 2 := by
  refine ⟨by decide, by decide, by decide⟩

/-- C7 (amended): with color off, string, error and Stringer payloads produce
exactly `<timestamp><sep><level><sep><message><sep>caller=<file:line>\n`; payloads
hitting the default branch produce
`<timestamp><sep><level><sep><json>\n<sep>caller=<file:line>\n`, with the
JSON encoder's own newline embedded before the final separator. -/
theorem C7_plain_format (st : LogxState) (ts caller level s e sg j0 : String)
    (strer j : Option String) (hcolor : st.withColor = false) :
    writePlainAny st false ts caller level (.str s)
      = .toWriter (ts ++ st.plainEncodingSep ++ level ++ st.plainEncodingSep ++ s
          ++ st.plainEncodingSep ++ "caller=" ++ caller ++ "\n")
    ∧ writePlainAny st false ts caller level (.other (some e) strer j)
      = .toWriter (ts ++ st.plainEncodingSep ++ level ++ st.plainEncodingSep ++ e
          ++ st.plainEncodingSep ++ "caller=" ++ caller ++ "\n")
    ∧ writePlainAny st false ts caller level (.other none (some sg) j)
      = .toWriter (ts ++ st.plainEncodingSep ++ level ++ st.plainEncodingSep ++ sg
          ++ st.plainEncodingSep ++ "caller=" ++ caller ++ "\n")
    ∧ writePlainAny st false ts caller level (.other none none (some j0))
      = .toWriter (ts ++ st.plainEncodingSep ++ level ++ st.plainEncodingSep ++ j0
          ++ "\n" ++ st.plainEncodingSep ++ "caller=" ++ caller ++ "\n") := by
  refine ⟨?_, ?_, ?_, ?_⟩ <;>
    simp [writePlainAny, writePlainText, writePlainValue, goJsonRepr, hcolor]

/-- Witness for C7 at a concrete input: the pipe-separated colorless configuration
with each payload kind. -/
theorem C7_plain_format_witness :
    writePlainAny pipeState false "T" "F:1" levelInfo (.str "hello")
      = .toWriter ("T" ++ pipeState.plainEncodingSep ++ levelInfo
          ++ pipeState.plainEncodingSep ++ "hello"
          ++ pipeState.plainEncodingSep ++ "caller=" ++ "F:1" ++ "\n")
    ∧ writePlainAny pipeState false "T" "F:1" levelInfo (.other (some "E") none none)
      = .toWriter ("T" ++ pipeState.plainEncodingSep ++ levelInfo
          ++ pipeState.plainEncodingSep ++ "E"
          ++ pipeState.plainEncodingSep ++ "caller=" ++ "F:1" ++ "\n")
    ∧ writePlainAny pipeState false "T" "F:1" levelInfo (.other none (some "S") none)
      = .toWriter ("T" ++ pipeState.plainEncodingSep ++ levelInfo
          ++ pipeState.plainEncodingSep ++ "S"
          ++ pipeState.plainEncodingSep ++ "caller=" ++ "F:1" ++ "\n")
    ∧ writePlainAny pipeState false "T" "F:1" levelInfo (.other none none (some "5"))
      = .toWriter ("T" ++ pipeState.plainEncodingSep ++ levelInfo
          ++ pipeState.plainEncodingSep ++ "5" ++ "\n"
          ++ pipeState.plainEncodingSep ++ "caller=" ++ "F:1" ++ "\n") :=
  C7_plain_format pipeState "T" "F:1" levelInfo "hello" "E" "S" "5" none none (by decide)

/-- Value of one hexadecimal digit character (either case), `none` otherwise. -/
def hexVal (c : Char) : Option Nat :=
  if 48 ≤ c.toNat ∧ c.toNat ≤ 57 then some (c.toNat - 48)
  else if 97 ≤ c.toNat ∧ c.toNat ≤ 102 then some (c.toNat - 87)
  else if 65 ≤ c.toNat ∧ c.toNat ≤ 70 then some (c.toNat - 55)
  else none

/-- Read four hexadecimal digits off the input. -/
def readHex4 (l : List Char) : Option (Nat × List Char) :=
  match l with
  | h1 :: h2 :: h3 :: h4 :: rest =>
      match hexVal h1, hexVal h2, hexVal h3, hexVal h4 with
      | some a, some b, some x, some y =>
          some ((((a * 16 + b) * 16 + x) * 16 + y), rest)
      | _, _, _, _ => none
  | _ => none

/-- Decode one short JSON escape character (the letter after the backslash). -/
def escDecode (e : Char) : Option Char :=
  if e = '"' then some '"'
  else if e = '\\' then some '\\'
  else if e = '/' then some '/'
  else if e = 'n' then some '\n'
  else if e = 'r' then some '\r'
  else if e = 't' then some '\t'
  else none

/-- Decode the remainder of one JSON escape sequence (the input after the
backslash): either `uXXXX` (decoded through `Char.ofNat`; surrogate pairs are out
of scope — the encoder side never emits them) or a short escape. -/
def decodeEscape (rest : List Char) : Option (Char × List Char) :=
  match rest with
  | [] => none
  | e :: rest2 =>
      if e = 'u' then
        match readHex4 rest2 with
        | some (n, rest3) => some (Char.ofNat n, rest3)
        | none => none
      else
        match escDecode e with
        | some d => some (d, rest2)
        | none => none

/-- Decoder for a JSON string body (the input after the opening quote): returns
the decoded characters and the input remaining after the closing quote.  `fuel`
bounds the recursion (one unit per decoded character). -/
def parseStringBodyAux : Nat → List Char → Option (List Char × List Char)
  | 0, _ => none
  | _ + 1, [] => none
  | fuel + 1, c :: rest =>
      if c = '"' then some ([], rest)
      else if c = '\\' then
        match decodeEscape rest with
        | some (d, rest2) =>
            (parseStringBodyAux fuel rest2).map (fun p => (d :: p.1, p.2))
        | none => none
      else (parseStringBodyAux fuel rest).map (fun p => (c :: p.1, p.2))

/-- Decoder for a JSON string body, with enough fuel for its own input. -/
def parseStringBody (l : List Char) : Option (List Char × List Char) :=
  parseStringBodyAux (l.length + 1) l

/-- Parse one JSON string literal (opening quote onward). -/
def parseJString : List Char → Option (List Char × List Char)
  | [] => none
  | c :: rest => if c = '"' then parseStringBody rest else none

/-- Consume one expected punctuation character. -/
def expectChar (c : Char) (l : List Char) : Option (List Char) :=
  match l with
  | [] => none
  | x :: rest => if x = c then some rest else none

/-- Parse the `"key":"value"` pairs of a compact JSON object with string values
(the shape `json.Marshal` gives the entry map), each pair followed by `,` (more
pairs) or the closing brace (end of object).  `fuel` bounds the recursion. -/
def parsePairsAux : Nat → List Char → Option (List (List Char × List Char) × List Char)
  | 0, _ => none
  | fuel + 1, l =>
      match parseJString l with
      | none => none
      | some (k, l1) =>
          match expectChar ':' l1 with
          | none => none
          | some l2 =>
              match parseJString l2 with
              | none => none
              | some (v, l3) =>
                  match expectChar ',' l3 with
                  | some l4 =>
                      (parsePairsAux fuel l4).map (fun p => ((k, v) :: p.1, p.2))
                  | none =>
                      match expectChar '}' l3 with
                      | some l4 => some ([(k, v)], l4)
                      | none => none

/-- Decode a whole compact JSON object with string values into its key/value
pairs; fails unless the input is exactly one object. -/
def parseObj (s : String) : Option (List (String × String)) :=
  match expectChar '{' s.data with
  | none => none
  | some rest =>
      match parsePairsAux (rest.length + 1) rest with
      | some (ps, []) => some (ps.map (fun p => (String.mk p.1, String.mk p.2)))
      | _ => none

/-- The characters of the JSON marshaling of one string (used to relate
`jsonQuote` to the decoder). -/
def quoteChars (s : List Char) : List Char :=
  '"' :: (s.map escapeChar).flatten ++ ['"']

/-- The characters of one marshaled `"key":"value"` pair. -/
def renderPair (p : List Char × List Char) : List Char :=
  quoteChars p.1 ++ ':' :: quoteChars p.2

/-- The characters of a marshaled pair sequence, up to and including the closing
brace of the object. -/
def renderPairs : List (List Char × List Char) → List Char
  | [] => ['}']
  | [p] => renderPair p ++ ['}']
  | p :: ps => renderPair p ++ ',' :: renderPairs ps

theorem hexVal_hexDigit (d : Nat) (h : d < 16) : hexVal (hexDigit d) = some d := by
  interval_cases d <;> decide

theorem readHex4_digits (a b : Nat) (ha : a < 16) (hb : b < 16) (l : List Char) :
    readHex4 ('0' :: '0' :: hexDigit a :: hexDigit b :: l) = some (a * 16 + b, l) := by
  have h0 : hexVal '0' = some 0 := rfl
  simp [readHex4, h0, hexVal_hexDigit a ha, hexVal_hexDigit b hb]

set_option maxHeartbeats 1600000 in
theorem parseStringBodyAux_escapeChar (c : Char) (l : List Char) (fuel : Nat) :
    parseStringBodyAux (fuel + 1) (escapeChar c ++ l)
      = (parseStringBodyAux fuel l).map (fun p => (c :: p.1, p.2)) := by
  unfold escapeChar
  split_ifs with h1 h2 h3 h4 h5 h6 h7 h8 h9 h10 h11
  · subst h1; simp [parseStringBodyAux, decodeEscape, escDecode]
  · subst h2; simp [parseStringBodyAux, decodeEscape, escDecode]
  · subst h3; simp [parseStringBodyAux, decodeEscape, escDecode]
  · subst h4; simp [parseStringBodyAux, decodeEscape, escDecode]
  · subst h5; simp [parseStringBodyAux, decodeEscape, escDecode]
  · simp only [List.cons_append, List.nil_append]
    have hd : decodeEscape
        ('u' :: '0' :: '0' :: hexDigit (c.toNat / 16) :: hexDigit (c.toNat % 16) :: l)
        = some (Char.ofNat (c.toNat / 16 * 16 + c.toNat % 16), l) := by
      simp [decodeEscape,
        readHex4_digits (c.toNat / 16) (c.toNat % 16) (by omega)
          (Nat.mod_lt _ (by norm_num)) l]
    have harith : c.toNat / 16 * 16 + c.toNat % 16 = c.toNat := by omega
    rw [harith, Char.ofNat_toNat] at hd
    simp [parseStringBodyAux, hd]
  · subst h7
    have hv0 : hexVal '0' = some 0 := rfl
    have hv3 : hexVal '3' = some 3 := rfl
    have hvc : hexVal 'c' = some 12 := rfl
    have hlt : Char.ofNat 60 = '<' := rfl
    simp [parseStringBodyAux, decodeEscape, readHex4, hv0, hv3, hvc, hlt]
  · subst h8
    have hv0 : hexVal '0' = some 0 := rfl
    have hv3 : hexVal '3' = some 3 := rfl
    have hve : hexVal 'e' = some 14 := rfl
    have hgt : Char.ofNat 62 = '>' := rfl
    simp [parseStringBodyAux, decodeEscape, readHex4, hv0, hv3, hve, hgt]
  · subst h9
    have hv0 : hexVal '0' = some 0 := rfl
    have hv2 : hexVal '2' = some 2 := rfl
    have hv6 : hexVal '6' = some 6 := rfl
    have hamp : Char.ofNat 38 = '&' := rfl
    simp [parseStringBodyAux, decodeEscape, readHex4, hv0, hv2, hv6, hamp]
  · have hc : Char.ofNat 8232 = c := by rw [← h10, Char.ofNat_toNat]
    have hv2 : hexVal '2' = some 2 := rfl
    have hv0 : hexVal '0' = some 0 := rfl
    have hv8 : hexVal '8' = some 8 := rfl
    simp [parseStringBodyAux, decodeEscape, readHex4, hv2, hv0, hv8]
    rw [hc]
  · have hc : Char.ofNat 8233 = c := by rw [← h11, Char.ofNat_toNat]
    have hv2 : hexVal '2' = some 2 := rfl
    have hv0 : hexVal '0' = some 0 := rfl
    have hv9 : hexVal '9' = some 9 := rfl
    simp [parseStringBodyAux, decodeEscape, readHex4, hv2, hv0, hv9]
    rw [hc]
  · simp [parseStringBodyAux, h1, h2]

set_option maxHeartbeats 1600000 in
theorem escapeChar_length_pos (c : Char) : 1 ≤ (escapeChar c).length := by
  unfold escapeChar
  split_ifs <;> simp

theorem length_le_escaped (s : List Char) :
    s.length ≤ ((s.map escapeChar).flatten).length := by
  induction s with
  | nil => simp
  | cons c cs ih =>
      have := escapeChar_length_pos c
      simp only [List.map_cons, List.flatten_cons, List.length_append,
        List.length_cons]
      omega

theorem parseStringBodyAux_escape (s : List Char) (rest : List Char) (fuel : Nat)
    (hfuel : s.length < fuel) :
    parseStringBodyAux fuel ((s.map escapeChar).flatten ++ '"' :: rest)
      = some (s, rest) := by
  induction s generalizing fuel with
  | nil =>
      cases fuel with
      | zero => omega
      | succ f => simp [parseStringBodyAux]
  | cons c cs ih =>
      cases fuel with
      | zero => omega
      | succ f =>
          rw [List.map_cons, List.flatten_cons, List.append_assoc,
            parseStringBodyAux_escapeChar c _ f,
            ih f (by simp only [List.length_cons] at hfuel; omega)]
          rfl

theorem parseStringBody_escape (s rest : List Char) :
    parseStringBody ((s.map escapeChar).flatten ++ '"' :: rest) = some (s, rest) := by
  unfold parseStringBody
  apply parseStringBodyAux_escape
  have h := length_le_escaped s
  simp only [List.length_append, List.length_cons]
  omega

theorem parseJString_quote (s rest : List Char) :
    parseJString (quoteChars s ++ rest) = some (s, rest) := by
  have harg : quoteChars s ++ rest
      = '"' :: ((s.map escapeChar).flatten ++ '"' :: rest) := by
    simp [quoteChars]
  rw [harg]
  simp only [parseJString, if_true]
  exact parseStringBody_escape s rest

theorem renderPairs_length (ps : List (List Char × List Char)) :
    ps.length ≤ (renderPairs ps).length := by
  induction ps with
  | nil => simp [renderPairs]
  | cons p ps ih =>
      cases ps with
      | nil => simp [renderPairs, renderPair, quoteChars]
      | cons q qs =>
          simp only [renderPairs, List.length_append, List.length_cons] at *
          omega

theorem parsePairsAux_renderPairs (ps : List (List Char × List Char)) (fuel : Nat)
    (rest : List Char) (hne : ps ≠ []) (hfuel : ps.length ≤ fuel) :
    parsePairsAux fuel (renderPairs ps ++ rest) = some (ps, rest) := by
  induction ps generalizing fuel rest with
  | nil => exact absurd rfl hne
  | cons p ps ih =>
      cases fuel with
      | zero => simp at hfuel
      | succ f =>
          cases ps with
          | nil =>
              have harg : renderPairs [p] ++ rest
                  = quoteChars p.1 ++ (':' :: (quoteChars p.2 ++ ('}' :: rest))) := by
                simp [renderPairs, renderPair]
              rw [harg]
              simp [parsePairsAux, parseJString_quote, expectChar]
          | cons q qs =>
              have harg : renderPairs (p :: q :: qs) ++ rest
                  = quoteChars p.1 ++ (':' :: (quoteChars p.2
                      ++ (',' :: (renderPairs (q :: qs) ++ rest)))) := by
                simp [renderPairs, renderPair]
              rw [harg]
              have hihfuel : (q :: qs).length ≤ f := by
                simp only [List.length_cons] at hfuel ⊢
                omega
              simp [parsePairsAux, parseJString_quote, expectChar,
                ih f rest (by simp) hihfuel]

theorem jsonQuote_data (s : String) : (jsonQuote s).data = quoteChars s.data := rfl

theorem marshalStrEntry_data (ts caller level cj : String) :
    (marshalStrEntry ts caller level (jsonQuote cj)).data
      = '{' :: renderPairs
          [("@timestamp".data, ts.data), ("caller".data, caller.data),
            ("content".data, cj.data), ("level".data, level.data)] := by
  have hlb : "\x7b".data = ['{'] := rfl
  have hrb : "\x7d".data = ['}'] := rfl
  have hcolon : ":".data = [':'] := rfl
  have hcomma : ",".data = [','] := rfl
  simp [marshalStrEntry, renderPairs, renderPair, jsonQuote_data,
    String.data_append, hlb, hrb, hcolon, hcomma]

theorem parseObj_marshal (ts caller level cj : String) :
    parseObj (marshalStrEntry ts caller level (jsonQuote cj))
      = some [("@timestamp", ts), ("caller", caller), ("content", cj),
          ("level", level)] := by
  unfold parseObj
  rw [marshalStrEntry_data]
  have hpairs : parsePairsAux
      ((renderPairs [("@timestamp".data, ts.data), ("caller".data, caller.data),
          ("content".data, cj.data), ("level".data, level.data)]).length + 1)
      (renderPairs [("@timestamp".data, ts.data), ("caller".data, caller.data),
          ("content".data, cj.data), ("level".data, level.data)])
      = some ([("@timestamp".data, ts.data), ("caller".data, caller.data),
          ("content".data, cj.data), ("level".data, level.data)], []) := by
    have h := parsePairsAux_renderPairs
      [("@timestamp".data, ts.data), ("caller".data, caller.data),
        ("content".data, cj.data), ("level".data, level.data)]
      ((renderPairs [("@timestamp".data, ts.data), ("caller".data, caller.data),
          ("content".data, cj.data), ("level".data, level.data)]).length + 1)
      [] (by simp)
      (le_trans (renderPairs_length _) (Nat.le_succ _))
    simpa using h
  simp [expectChar, hpairs]

/-- C8: JSON-mode round-trip.  For each level (info, error) and every string
payload, the encoder emits exactly one JSON object — the sorted-key marshaling of
the `@timestamp`/`caller`/`content`/`level` entry — followed by a newline, and
decoding that object yields exactly the four keys with the original level string
and the original payload string in the `content` field. -/
theorem C8_json_roundtrip (st : LogxState) (ts caller s : String)
    (hjson : st.encoding = jsonEncodingType) :
    (output st false ts caller levelInfo (.str s)
      = .toWriter (marshalStrEntry ts caller levelInfo (jsonQuote s) ++ "\n"))
    ∧ parseObj (marshalStrEntry ts caller levelInfo (jsonQuote s))
        = some [("@timestamp", ts), ("caller", caller), ("content", s),
            ("level", levelInfo)]
    ∧ (output st false ts caller levelError (.str s)
      = .toWriter (marshalStrEntry ts caller levelError (jsonQuote s) ++ "\n"))
    ∧ parseObj (marshalStrEntry ts caller levelError (jsonQuote s))
        = some [("@timestamp", ts), ("caller", caller), ("content", s),
            ("level", levelError)] := by
  refine ⟨?_, parseObj_marshal ts caller levelInfo s, ?_,
    parseObj_marshal ts caller levelError s⟩ <;>
    simp [output, hjson, jsonEncodingType, plainEncodingType, writeJson, goJsonRepr]

/-- Witness for C8 at a concrete input: the initial (JSON-encoding) state with
timestamp "T", caller "F:1" and payload "hello". -/
theorem C8_json_roundtrip_witness :
    (output initialState false "T" "F:1" levelInfo (.str "hello")
      = .toWriter (marshalStrEntry "T" "F:1" levelInfo (jsonQuote "hello") ++ "\n"))
    ∧ parseObj (marshalStrEntry "T" "F:1" levelInfo (jsonQuote "hello"))
        = some [("@timestamp", "T"), ("caller", "F:1"), ("content", "hello"),
            ("level", levelInfo)]
    ∧ (output initialState false "T" "F:1" levelError (.str "hello")
      = .toWriter (marshalStrEntry "T" "F:1" levelError (jsonQuote "hello") ++ "\n"))
    ∧ parseObj (marshalStrEntry "T" "F:1" levelError (jsonQuote "hello"))
        = some [("@timestamp", "T"), ("caller", "F:1"), ("content", "hello"),
            ("level", levelError)] :=
  C8_json_roundtrip initialState "T" "F:1" "hello" (by decide)
